import Mathlib

/-!
# Verification of the ry-safe text-safety engine

Shallow embedding of the repository's escaping/unescaping core and its
`Markup` safe-string type, together with proofs of the spec's claims.

Strings are modelled as `List Char` (Python strings are sequences of Unicode
scalar values).  The repository contains three overlapping Python
implementations:

* `src/src/rysafe/markupsafe_compat.py` — the primary package; its character
  substitution delegates to the Rust extension `_rysafe_core` (not present
  under `src/`), which is modelled from the spec where needed;
* `src/python_bindings/rysafe/__init__.py` — a pure-Python fallback built on
  CPython's `html.escape` / `html.unescape`;
* `src/python_bindings/__init__.py` — a second pure-Python fallback.

The CPython `html` module functions the fallbacks call are embedded faithfully
below (`Html` namespace).
-/

/-- `String.toList`, used to write concrete character lists readably. -/
def toChars (s : String) : List Char := s.toList

/-- The five markup-significant characters of the Entity Table. -/
def ampC : Char := '&'

def ltC : Char := '<'

def gtC : Char := '>'

/-- Double quote `"`. -/
def quotC : Char := Char.ofNat 0x22

/-- Single quote `'`. -/
def aposC : Char := Char.ofNat 0x27

/-- Entity for `&` (`&amp;`). -/
def ampEnt : List Char := ['&', 'a', 'm', 'p', ';']

/-- Entity for `<` (`&lt;`). -/
def ltEnt : List Char := ['&', 'l', 't', ';']

/-- Entity for `>` (`&gt;`). -/
def gtEnt : List Char := ['&', 'g', 't', ';']

/-- Entity for `"` (`&quot;`). -/
def quotEnt : List Char := ['&', 'q', 'u', 'o', 't', ';']

/-- Entity for the single quote (`&#x27;`). -/
def aposEnt : List Char := ['&', '#', 'x', '2', '7', ';']

namespace Py

/-- Fuel-driven worker for `Py.replace`.  One unit of fuel is spent per
emitted chunk; every step consumes at least one input character, so fuel equal
to the input length is always sufficient (`Py.replace` supplies it). -/
def replGo (old new : List Char) : Nat → List Char → List Char
  | 0, s => s
  | _ + 1, [] => []
  | fuel + 1, c :: rest =>
    if old ≠ [] ∧ old.isPrefixOf (c :: rest) then
      new ++ replGo old new fuel ((c :: rest).drop old.length)
    else
      c :: replGo old new fuel rest

/-- Python `str.replace(old, new)` (count = -1): leftmost, non-overlapping
substring replacement.  All call sites in the repository pass a non-empty
`old`; the `old ≠ []` guard mirrors that (CPython's empty-pattern behaviour is
never exercised). -/
def replace (old new s : List Char) : List Char := replGo old new s.length s

end Py

/-- Substitution applied to a single character when `old` is the one-character
string `[c]`: the characterisation used to relate sequential `str.replace`
passes to a single left-to-right pass. -/
def subst (c : Char) (r : List Char) (d : Char) : List Char :=
  if d = c then r else [d]

namespace Html

/-- CPython `html.escape(s, quote=True)` (html/__init__.py): five sequential
`str.replace` passes, `&` first, then `<`, `>`, `"`, `'`. -/
def escape (s : List Char) : List Char :=
  Py.replace [aposC] aposEnt
    (Py.replace [quotC] quotEnt
      (Py.replace [gtC] gtEnt
        (Py.replace [ltC] ltEnt
          (Py.replace [ampC] ampEnt s))))

end Html

/-- The Entity Table as a per-character map: the single left-to-right pass of
spec §4.1.  `&`→`&amp;`, `<`→`&lt;`, `>`→`&gt;`, `"`→`&quot;`, `'`→`&#x27;`;
every other character passes through unchanged. -/
def escChar (c : Char) : List Char :=
  if c = ampC then ampEnt
  else if c = ltC then ltEnt
  else if c = gtC then gtEnt
  else if c = quotC then quotEnt
  else if c = aposC then aposEnt
  else [c]

namespace Core

/-- Modelled from the spec: `_rysafe_core.escape`, the Rust extension the
primary package delegates to (`markupsafe_compat.py` line 22), is not present
under `src/`.  Spec §4.1: substitute each Entity Table character in a single
left-to-right pass with no re-scanning of substituted output; all other
characters pass through.  This agrees with the in-source Python fallback
(`Fallback.escapeText`, theorem `escapeText_eq_flatMap` below). -/
def escape (s : List Char) : List Char := s.flatMap escChar

/-- Modelled from the spec: `_rysafe_core.escape_silent` on a (present) string
argument is identical to `escape` (spec §4.1: `escape_silent` differs only on
absent input, which `markupsafe_compat.escape_silent` handles before calling
the core). -/
def escape_silent (s : List Char) : List Char := Core.escape s

end Core

section ReplaceLemmas

/-- `replGo` with a one-character pattern acts as a per-character map. -/
theorem replGo_single (c : Char) (r : List Char) :
    ∀ (f : Nat) (s : List Char), s.length ≤ f →
      Py.replGo [c] r f s = s.flatMap (subst c r) := by
  intro f
  induction f with
  | zero =>
    intro s hs
    have h : s = [] := List.length_eq_zero.mp (Nat.le_zero.mp hs)
    simp [h, Py.replGo]
  | succ f ih =>
    intro s hs
    cases s with
    | nil => simp [Py.replGo]
    | cons d rest =>
      have hlen : rest.length ≤ f := by
        simpa [Nat.succ_le_succ_iff] using hs
      by_cases hdc : c = d
      · subst hdc
        have hpre : [c].isPrefixOf (c :: rest) = true := by
          simp [List.isPrefixOf]
        have hsub : subst c r c = r := by simp [subst]
        simp [Py.replGo, hpre, ih rest hlen, hsub]
      · have hne : ¬ d = c := fun h => hdc h.symm
        have hpre : [c].isPrefixOf (d :: rest) = false := by
          simp [List.isPrefixOf]
          exact hdc
        have hsub : subst c r d = [d] := by simp [subst, hne]
        simp [Py.replGo, hpre, ih rest hlen, hsub]

/-- `Py.replace` with a one-character pattern acts as a per-character map. -/
theorem replace_single (c : Char) (r : List Char) (s : List Char) :
    Py.replace [c] r s = s.flatMap (subst c r) :=
  replGo_single c r s.length s le_rfl

/-- A replacement whose pattern starts with a character that does not occur in
the input leaves the input unchanged. -/
theorem replGo_skip (h0 : Char) (tl nw : List Char) :
    ∀ (f : Nat) (s : List Char), s.length ≤ f → h0 ∉ s →
      Py.replGo (h0 :: tl) nw f s = s := by
  intro f
  induction f with
  | zero =>
    intro s hs _
    have h : s = [] := List.length_eq_zero.mp (Nat.le_zero.mp hs)
    simp [h, Py.replGo]
  | succ f ih =>
    intro s hs hmem
    cases s with
    | nil => simp [Py.replGo]
    | cons d rest =>
      have hlen : rest.length ≤ f := by
        simpa [Nat.succ_le_succ_iff] using hs
      have hne : ¬ h0 = d := fun h => hmem (by simp [h])
      have hpre : (h0 :: tl).isPrefixOf (d :: rest) = false := by
        simp [List.isPrefixOf]
        exact fun h => absurd h hne
      have hrest : h0 ∉ rest := fun h => hmem (by simp [h])
      simp [Py.replGo, hpre, ih rest hlen hrest]

/-- Same fact at the `Py.replace` level. -/
theorem replace_skip (h0 : Char) (tl nw s : List Char) (h : h0 ∉ s) :
    Py.replace (h0 :: tl) nw s = s :=
  replGo_skip h0 tl nw s.length s le_rfl h

end ReplaceLemmas

section EscapeCharacterisation

/-- Each character produces a non-empty substitution. -/
theorem escChar_length_pos (c : Char) : 1 ≤ (escChar c).length := by
  unfold escChar
  split_ifs <;> simp [ampEnt, ltEnt, gtEnt, quotEnt, aposEnt]

/-- The single quote never occurs in the image of the Entity Table map. -/
theorem aposC_not_mem_escChar (c : Char) : aposC ∉ escChar c := by
  unfold escChar
  split_ifs with h1 h2 h3 h4 h5
  · decide
  · decide
  · decide
  · decide
  · decide
  · simp only [List.mem_singleton]
    exact fun h => h5 h.symm

/-- The single quote never occurs in the image of the Entity Table pass. -/
theorem aposC_not_mem_flatMap (s : List Char) : aposC ∉ s.flatMap escChar := by
  intro hmem
  rcases List.mem_flatMap.mp hmem with ⟨c, _, hc⟩
  exact aposC_not_mem_escChar c hc

/-- The five sequential `str.replace` passes of CPython's `html.escape` equal
the single left-to-right Entity Table pass: each occurrence of the five
special characters is substituted once, without re-scanning substituted
output, and every other character passes through unchanged. -/
theorem htmlEscape_eq_flatMap (s : List Char) :
    Html.escape s = s.flatMap escChar := by
  unfold Html.escape
  rw [replace_single, replace_single, replace_single, replace_single,
    replace_single]
  rw [List.flatMap_assoc, List.flatMap_assoc, List.flatMap_assoc,
    List.flatMap_assoc]
  induction s with
  | nil => rfl
  | cons c rest ih =>
    rw [List.flatMap_cons, List.flatMap_cons, ih]
    congr 1
    by_cases h1 : c = ampC
    · subst h1; decide
    · by_cases h2 : c = ltC
      · subst h2; decide
      · by_cases h3 : c = gtC
        · subst h3; decide
        · by_cases h4 : c = quotC
          · subst h4; decide
          · by_cases h5 : c = aposC
            · subst h5; decide
            · simp [escChar, subst, h1, h2, h3, h4, h5]

end EscapeCharacterisation

namespace Html

/-- The character class of a named reference candidate in CPython's
`_charref` regex: `[^\t\n\f <&#;]`. -/
def isNameChar (c : Char) : Bool :=
  !(c == Char.ofNat 9 || c == Char.ofNat 10 || c == Char.ofNat 12 ||
    c == ' ' || c == '<' || c == '&' || c == '#' || c == ';')

/-- `[0-9a-fA-F]`. -/
def isHexDig (c : Char) : Bool :=
  c.isDigit || decide (97 ≤ c.toNat ∧ c.toNat ≤ 102) ||
    decide (65 ≤ c.toNat ∧ c.toNat ≤ 70)

/-- Value of a decimal digit string (`int(s, 10)` on digits only). -/
def decToNat (ds : List Char) : Nat :=
  ds.foldl (fun n c => 10 * n + (c.toNat - 48)) 0

/-- Value of a single hexadecimal digit. -/
def hexVal (c : Char) : Nat :=
  if c.isDigit then c.toNat - 48
  else if 97 ≤ c.toNat then c.toNat - 87
  else c.toNat - 55

/-- Value of a hexadecimal digit string (`int(s, 16)` on hex digits only). -/
def hexToNat (ds : List Char) : Nat :=
  ds.foldl (fun n c => 16 * n + hexVal c) 0

/-- CPython `html._invalid_charrefs`: numeric references remapped by the
HTML5 numeric-character-reference-end state (windows-1252 legacy points,
NUL and CR), copied verbatim from html/__init__.py. -/
def invalidCharref : Nat → Option Nat
  | 0x00 => some 0xFFFD
  | 0x0d => some 0x0D
  | 0x80 => some 0x20AC
  | 0x81 => some 0x81
  | 0x82 => some 0x201A
  | 0x83 => some 0x192
  | 0x84 => some 0x201E
  | 0x85 => some 0x2026
  | 0x86 => some 0x2020
  | 0x87 => some 0x2021
  | 0x88 => some 0x2C6
  | 0x89 => some 0x2030
  | 0x8a => some 0x160
  | 0x8b => some 0x2039
  | 0x8c => some 0x152
  | 0x8d => some 0x8D
  | 0x8e => some 0x17D
  | 0x8f => some 0x8F
  | 0x90 => some 0x90
  | 0x91 => some 0x2018
  | 0x92 => some 0x2019
  | 0x93 => some 0x201C
  | 0x94 => some 0x201D
  | 0x95 => some 0x2022
  | 0x96 => some 0x2013
  | 0x97 => some 0x2014
  | 0x98 => some 0x2DC
  | 0x99 => some 0x2122
  | 0x9a => some 0x161
  | 0x9b => some 0x203A
  | 0x9c => some 0x153
  | 0x9d => some 0x9D
  | 0x9e => some 0x17E
  | 0x9f => some 0x178
  | _ => none

/-- CPython `html._invalid_codepoints`: numeric references that decode to the
empty string, copied verbatim from html/__init__.py. -/
def invalidCodepoints : List Nat :=
  [0x1, 0x2, 0x3, 0x4, 0x5, 0x6, 0x7, 0x8,
   0xe, 0xf, 0x10, 0x11, 0x12, 0x13, 0x14, 0x15, 0x16, 0x17, 0x18, 0x19,
   0x1a, 0x1b, 0x1c, 0x1d, 0x1e, 0x1f,
   0x7f, 0x80, 0x81, 0x82, 0x83, 0x84, 0x85, 0x86, 0x87, 0x88, 0x89, 0x8a,
   0x8b, 0x8c, 0x8d, 0x8e, 0x8f, 0x90, 0x91, 0x92, 0x93, 0x94, 0x95, 0x96,
   0x97, 0x98, 0x99, 0x9a, 0x9b, 0x9c, 0x9d, 0x9e, 0x9f,
   0xfdd0, 0xfdd1, 0xfdd2, 0xfdd3, 0xfdd4, 0xfdd5, 0xfdd6, 0xfdd7, 0xfdd8,
   0xfdd9, 0xfdda, 0xfddb, 0xfddc, 0xfddd, 0xfdde, 0xfddf, 0xfde0, 0xfde1,
   0xfde2, 0xfde3, 0xfde4, 0xfde5, 0xfde6, 0xfde7, 0xfde8, 0xfde9, 0xfdea,
   0xfdeb, 0xfdec, 0xfded, 0xfdee, 0xfdef,
   0xb, 0xfffe, 0xffff, 0x1fffe, 0x1ffff, 0x2fffe, 0x2ffff, 0x3fffe, 0x3ffff,
   0x4fffe, 0x4ffff, 0x5fffe, 0x5ffff, 0x6fffe, 0x6ffff, 0x7fffe, 0x7ffff,
   0x8fffe, 0x8ffff, 0x9fffe, 0x9ffff, 0xafffe, 0xaffff, 0xbfffe, 0xbffff,
   0xcfffe, 0xcffff, 0xdfffe, 0xdffff, 0xefffe, 0xeffff, 0xffffe, 0xfffff,
   0x10fffe, 0x10ffff]

/-- The entries of CPython's `html.entities.html5` named-reference table
consulted by this development, copied verbatim (the full table has 2231
entries; every lookup performed by a theorem in this file falls within this
subset, and the universally quantified theorems below only ever look up the
keys listed here).  Keys without a trailing `;` are HTML5's legacy
semicolon-less forms. -/
def html5Lookup (s : List Char) : Option (List Char) :=
  if s = ['a', 'm', 'p', ';'] ∨ s = ['a', 'm', 'p'] then some [ampC]
  else if s = ['l', 't', ';'] ∨ s = ['l', 't'] then some [ltC]
  else if s = ['g', 't', ';'] ∨ s = ['g', 't'] then some [gtC]
  else if s = ['q', 'u', 'o', 't', ';'] ∨ s = ['q', 'u', 'o', 't'] then
    some [quotC]
  else if s = ['a', 'p', 'o', 's', ';'] then some [aposC]
  else if s = ['n', 'o', 't', ';'] ∨ s = ['n', 'o', 't'] then
    some [Char.ofNat 0xAC]
  else if s = ['c', 'o', 'p', 'y', ';'] ∨ s = ['c', 'o', 'p', 'y'] then
    some [Char.ofNat 0xA9]
  else if s = ['b', 'u', 'l', 'l', ';'] then some [Char.ofNat 0x2022]
  else none

/-- Replacement for a matched numeric reference (`_replace_charref`, numeric
branch): legacy remappings first, then the replacement character for
surrogates and out-of-range points, then the empty string for invalid code
points, else the referenced character. -/
def numericReplace (num : Nat) : List Char :=
  match invalidCharref num with
  | some r => [Char.ofNat r]
  | none =>
    if (0xD800 ≤ num ∧ num ≤ 0xDFFF) ∨ 0x10FFFF < num then [Char.ofNat 0xFFFD]
    else if num ∈ invalidCodepoints then []
    else [Char.ofNat num]

/-- The longest-matching-prefix search of `_replace_charref`'s named branch:
`for x in range(len(s)-1, 1, -1)`, i.e. prefixes of length `len-1` down
to 2. -/
def prefixSearch (g : List Char) : Nat → Option (List Char × Nat)
  | 0 => none
  | 1 => none
  | x + 2 =>
    match html5Lookup (g.take (x + 2)) with
    | some r => some (r, x + 2)
    | none => prefixSearch g (x + 1)

/-- Replacement for a matched named-reference group (`_replace_charref`,
named branch): exact lookup, else longest matching prefix of length ≥ 2 with
the remainder appended, else `&` plus the group (textually unchanged). -/
def namedReplace (g : List Char) : List Char :=
  match html5Lookup g with
  | some r => r
  | none =>
    match prefixSearch g (g.length - 1) with
    | some (r, x) => r ++ g.drop x
    | none => ampC :: g

/-- Attempt to match CPython's `_charref` regex alternation right after a
`&`: `#` + decimal digits + optional `;`, or `#x/#X` + hex digits + optional
`;`, or 1–32 name-class characters + optional `;` — each alternative greedy.
Returns the replacement text and the number of characters consumed after the
`&`. -/
def tryMatch (rest : List Char) : Option (List Char × Nat) :=
  match rest with
  | '#' :: more =>
    match more with
    | c :: more2 =>
      if c = 'x' ∨ c = 'X' then
        let ds := more2.takeWhile isHexDig
        if ds = [] then none
        else
          match more2.drop ds.length with
          | ';' :: _ => some (numericReplace (hexToNat ds), 2 + ds.length + 1)
          | _ => some (numericReplace (hexToNat ds), 2 + ds.length)
      else
        let ds := more.takeWhile Char.isDigit
        if ds = [] then none
        else
          match more.drop ds.length with
          | ';' :: _ => some (numericReplace (decToNat ds), 1 + ds.length + 1)
          | _ => some (numericReplace (decToNat ds), 1 + ds.length)
    | [] => none
  | _ =>
    let name := (rest.takeWhile isNameChar).take 32
    if name = [] then none
    else
      match rest.drop name.length with
      | ';' :: _ => some (namedReplace (name ++ [';']), name.length + 1)
      | _ => some (namedReplace name, name.length)

/-- Fuel-driven scanner for `html.unescape` (`_charref.sub` semantics):
left-to-right, matches only start at `&`, matched references are replaced and
the replacement is never re-scanned, a `&` with no match is copied through.
Each step consumes at least one character, so fuel equal to the input length
suffices (`Html.unescape` supplies it). -/
def unescGo : Nat → List Char → List Char
  | 0, s => s
  | _ + 1, [] => []
  | fuel + 1, c :: rest =>
    if c = ampC then
      match tryMatch rest with
      | some (repl, n) => repl ++ unescGo fuel (rest.drop n)
      | none => c :: unescGo fuel rest
    else
      c :: unescGo fuel rest

/-- CPython `html.unescape(s)` (html/__init__.py): substitute every match of
the `_charref` regex via `_replace_charref`. -/
def unescape (s : List Char) : List Char := unescGo s.length s

end Html


deriving instance DecidableEq for Except

/-- The safe-string type: `class Markup(str)` (markupsafe_compat.py lines
43-74, python_bindings/rysafe/__init__.py lines 29-31).  A value is "tagged
safe" exactly when it is wrapped in `Markup`. -/
structure Markup where
  chars : List Char
deriving DecidableEq, Repr

/-- `Markup.__html__` returns `self` (markupsafe_compat.py lines 76-78): a
`Markup` exposes the safe-rendering capability and renders as itself. -/
def Markup.html (m : Markup) : Markup := m

/-- The Python values the escaping API is exercised with:

* `vStr` — a plain `str`;
* `vMarkup` — a `Markup` (a `str` subclass exposing `__html__` = itself);
* `vHtmlOnly` — a non-`str` object exposing `__html__` whose `__str__`
  raises (safe-rendering capability without a textual conversion);
* `vBytes` — a `bytes` value (a list of byte values);
* `vNone` — Python `None`;
* `vObj` — any other object with a working textual conversion `str(obj)`
  (numbers, user objects, ...), carrying that text;
* `vBad` — an object with no `__html__` whose `__str__` raises (no textual
  conversion and no safe-rendering capability). -/
inductive Value where
  | vStr (s : List Char)
  | vMarkup (s : List Char)
  | vHtmlOnly (html : List Char)
  | vBytes (bs : List Nat)
  | vNone
  | vObj (text : List Char)
  | vBad
deriving DecidableEq, Repr

/-- Errors surfaced by the embedded Python code.  `unsupportedInputType` is
the exception propagated out of `str()` when a value has no textual
conversion (the spec's §7 `UnsupportedInputType`); `typeError` is Python's
`TypeError`; `indexError` is Python's `IndexError`. -/
inductive PyErr where
  | unsupportedInputType
  | typeError
  | indexError
deriving DecidableEq, Repr

namespace Py

/-- `hasattr(v, "__html__")`. -/
def hasHtml : Value → Bool
  | .vMarkup _ => true
  | .vHtmlOnly _ => true
  | _ => false

/-- The text produced by `v.__html__()` (only meaningful when `hasHtml`). -/
def htmlOf : Value → List Char
  | .vMarkup s => s
  | .vHtmlOnly h => h
  | _ => []

/-- Lower-case hexadecimal digit, as used by Python's `bytes.__repr__`. -/
def hexDigitChar (n : Nat) : Char :=
  if n < 10 then Char.ofNat (48 + n) else Char.ofNat (87 + n)

/-- Quote character chosen by `bytes.__repr__`: single quote, unless the
bytes contain a single quote and no double quote. -/
def bytesReprQuote (bs : List Nat) : Char :=
  if 0x27 ∈ bs ∧ 0x22 ∉ bs then quotC else aposC

/-- One byte rendered inside `bytes.__repr__`. -/
def bytesReprByte (q : Char) (b : Nat) : List Char :=
  if b = 92 then [Char.ofNat 92, Char.ofNat 92]
  else if b = q.toNat then [Char.ofNat 92, q]
  else if b = 9 then [Char.ofNat 92, 't']
  else if b = 10 then [Char.ofNat 92, 'n']
  else if b = 13 then [Char.ofNat 92, 'r']
  else if 0x20 ≤ b ∧ b ≤ 0x7E then [Char.ofNat b]
  else [Char.ofNat 92, 'x', hexDigitChar (b / 16), hexDigitChar (b % 16)]

/-- Python `repr(bytes)` = `str(bytes)`: the `b'...'` form. -/
def bytesRepr (bs : List Nat) : List Char :=
  let q := bytesReprQuote bs
  'b' :: q :: (bs.flatMap (bytesReprByte q) ++ [q])

/-- Fuel-driven UTF-8 decoder with the `errors="replace"` policy of
`bytes.decode("utf-8", "replace")`: an invalid or truncated sequence yields
one U+FFFD per maximal subpart.  Each step consumes at least one byte, so
fuel equal to the input length suffices (`utf8Decode` supplies it). -/
def utf8Go : Nat → List Nat → List Char
  | 0, _ => []
  | _ + 1, [] => []
  | fuel + 1, b :: rest =>
    if b ≤ 0x7F then Char.ofNat b :: utf8Go fuel rest
    else if 0xC2 ≤ b ∧ b ≤ 0xDF then
      match rest with
      | b2 :: rest2 =>
        if 0x80 ≤ b2 ∧ b2 ≤ 0xBF then
          Char.ofNat ((b - 0xC0) * 0x40 + (b2 - 0x80)) :: utf8Go fuel rest2
        else Char.ofNat 0xFFFD :: utf8Go fuel rest
      | [] => [Char.ofNat 0xFFFD]
    else if 0xE0 ≤ b ∧ b ≤ 0xEF then
      match rest with
      | b2 :: rest2 =>
        if (if b = 0xE0 then 0xA0 else 0x80) ≤ b2 ∧
            b2 ≤ (if b = 0xED then 0x9F else 0xBF) then
          match rest2 with
          | b3 :: rest3 =>
            if 0x80 ≤ b3 ∧ b3 ≤ 0xBF then
              Char.ofNat ((b - 0xE0) * 0x1000 + (b2 - 0x80) * 0x40 +
                (b3 - 0x80)) :: utf8Go fuel rest3
            else Char.ofNat 0xFFFD :: utf8Go fuel rest2
          | [] => [Char.ofNat 0xFFFD]
        else Char.ofNat 0xFFFD :: utf8Go fuel rest
      | [] => [Char.ofNat 0xFFFD]
    else if 0xF0 ≤ b ∧ b ≤ 0xF4 then
      match rest with
      | b2 :: rest2 =>
        if (if b = 0xF0 then 0x90 else 0x80) ≤ b2 ∧
            b2 ≤ (if b = 0xF4 then 0x8F else 0xBF) then
          match rest2 with
          | b3 :: rest3 =>
            if 0x80 ≤ b3 ∧ b3 ≤ 0xBF then
              match rest3 with
              | b4 :: rest4 =>
                if 0x80 ≤ b4 ∧ b4 ≤ 0xBF then
                  Char.ofNat ((b - 0xF0) * 0x40000 + (b2 - 0x80) * 0x1000 +
                    (b3 - 0x80) * 0x40 + (b4 - 0x80)) :: utf8Go fuel rest4
                else Char.ofNat 0xFFFD :: utf8Go fuel rest3
              | [] => [Char.ofNat 0xFFFD]
            else Char.ofNat 0xFFFD :: utf8Go fuel rest2
          | [] => [Char.ofNat 0xFFFD]
        else Char.ofNat 0xFFFD :: utf8Go fuel rest
      | [] => [Char.ofNat 0xFFFD]
    else Char.ofNat 0xFFFD :: utf8Go fuel rest

/-- `bytes.decode("utf-8", "replace")` — never fails (spec §7
`InvalidEncoding` is recovered locally via the replacement character). -/
def utf8Decode (bs : List Nat) : List Char := utf8Go bs.length bs

/-- UTF-8 encoding of one scalar value (`str.encode("utf-8")`). -/
def utf8EncodeChar (c : Char) : List Nat :=
  let n := c.toNat
  if n ≤ 0x7F then [n]
  else if n ≤ 0x7FF then [0xC0 + n / 0x40, 0x80 + n % 0x40]
  else if n ≤ 0xFFFF then
    [0xE0 + n / 0x1000, 0x80 + (n / 0x40) % 0x40, 0x80 + n % 0x40]
  else
    [0xF0 + n / 0x40000, 0x80 + (n / 0x1000) % 0x40,
     0x80 + (n / 0x40) % 0x40, 0x80 + n % 0x40]

/-- `str.encode("utf-8")`. -/
def utf8Encode (s : List Char) : List Nat := s.flatMap utf8EncodeChar

/-- Python `str(v)`: the canonical textual conversion.  `str` of a `str` (or
`Markup`) is itself, `str(None)` is the text `None`, `str` of bytes is the
`b'...'` repr, `str` of an object with a working `__str__` is that text, and
`str` of a value with no textual conversion propagates the exception
(`unsupportedInputType`). -/
def str : Value → Except PyErr (List Char)
  | .vStr s => .ok s
  | .vMarkup s => .ok s
  | .vHtmlOnly _ => .error .unsupportedInputType
  | .vBytes bs => .ok (bytesRepr bs)
  | .vNone => .ok (toChars "None")
  | .vObj t => .ok t
  | .vBad => .error .unsupportedInputType

/-- Which class bodies define `__eq__` / `__hash__` (Python data model). -/
structure ClassBody where
  definesEq : Bool
  definesHash : Bool
deriving DecidableEq, Repr

/-- Python data-model rule: a class body that overrides `__eq__` without
defining `__hash__` has its `__hash__` set to `None`, so `hash()` on its
instances — e.g. using one as a dict key or set element — raises
`TypeError`.  `inherited` is the hash the parent class would provide. -/
def hash (cls : ClassBody) (inherited : Nat) : Except PyErr Nat :=
  if cls.definesEq && !cls.definesHash then .error .typeError
  else .ok inherited

end Py

namespace Compat

/-- `markupsafe_compat.escape` (src/src/rysafe/markupsafe_compat.py lines
275-299): values exposing `__html__` are wrapped as already safe with no
substitution; bytes are decoded as UTF-8 with replacement; every other value
is converted with `str()` (whose exception, if any, propagates to the
caller) and the text is escaped by the core single pass; the result is a
`Markup`. -/
def escape : Value → Except PyErr Markup
  | .vMarkup s => .ok ⟨s⟩
  | .vHtmlOnly h => .ok ⟨h⟩
  | .vBytes bs => .ok ⟨Core.escape (Py.utf8Decode bs)⟩
  | v => (Py.str v).map fun s => ⟨Core.escape s⟩

/-- `markupsafe_compat.escape_silent` (lines 302-322): `None` maps to the
empty `Markup`; any other value is converted with `str()` and escaped (no
`__html__` or bytes branch in the source). -/
def escape_silent : Value → Except PyErr Markup
  | .vNone => .ok ⟨[]⟩
  | v => (Py.str v).map fun s => ⟨Core.escape_silent s⟩

/-- `Markup.__add__` (lines 80-87): a plain `str` operand is escaped first, a
`Markup` operand passes through, any other operand is converted with
`str()` (exceptions propagate) and escaped; the concatenation is wrapped as
`Markup`. -/
def add (m : Markup) : Value → Except PyErr Markup
  | .vStr s => .ok ⟨m.chars ++ Core.escape s⟩
  | .vMarkup s => .ok ⟨m.chars ++ s⟩
  | v => (Py.str v).map fun s => ⟨m.chars ++ Core.escape s⟩

/-- `Markup.__radd__` (lines 89-96), reached for `other + m` because `Markup`
is a `str` subclass overriding `__radd__` (Python dispatches to the subclass
first): same escaping rule, with the operand on the left. -/
def radd (m : Markup) : Value → Except PyErr Markup
  | .vStr s => .ok ⟨Core.escape s ++ m.chars⟩
  | .vMarkup s => .ok ⟨s ++ m.chars⟩
  | v => (Py.str v).map fun s => ⟨Core.escape s ++ m.chars⟩

/-- The `escape(item) for item in seq` generator inside `Markup.join`: each
item goes through `Compat.escape`; the first failure propagates. -/
def escapeAll : List Value → Except PyErr (List (List Char))
  | [] => .ok []
  | v :: vs => do
    let m ← escape v
    let rest ← escapeAll vs
    .ok (m.chars :: rest)

/-- `Markup.join` (lines 116-118): `str.join` over the escaped items, result
wrapped as `Markup`. -/
def join (sep : Markup) (items : List Value) : Except PyErr Markup :=
  (escapeAll items).map fun ts => ⟨List.intercalate sep.chars ts⟩

/-- The index argument of `Markup.__getitem__`: a single integer index or a
slice (modelled with optional start/stop, step 1). -/
inductive PyIndex where
  | index (i : Int)
  | slice (start stop : Option Int)
deriving DecidableEq, Repr

/-- CPython slice semantics for step 1: negative endpoints count from the
end, endpoints are clamped to `[0, len]`, defaults are `0` and `len`. -/
def pySlice (a b : Option Int) (s : List Char) : List Char :=
  let n : Int := s.length
  let lo : Int :=
    match a with
    | none => 0
    | some x => if x < 0 then max (x + n) 0 else min x n
  let hi : Int :=
    match b with
    | none => n
    | some x => if x < 0 then max (x + n) 0 else min x n
  (s.take hi.toNat).drop lo.toNat

/-- CPython single-index access: a negative index counts from the end; out of
range is `none` (`IndexError`). -/
def pyCharAt (s : List Char) (i : Int) : Option Char :=
  let j : Int := if i < 0 then i + s.length else i
  if j < 0 then none else s.get? j.toNat

/-- `Markup.__getitem__` (lines 235-240): `str.__getitem__`, re-wrapped as
`Markup` exactly when the index is a slice; a single-index result stays a
plain `str`. -/
def getitem (m : Markup) : PyIndex → Except PyErr Value
  | .slice a b => .ok (.vMarkup (pySlice a b m.chars))
  | .index i =>
    match pyCharAt m.chars i with
    | some c => .ok (.vStr [c])
    | none => .error .indexError

/-- `Markup.__eq__` (lines 243-245): delegates to `str.__eq__`, comparing
underlying text only (the safety tag is not part of identity); comparison
with a non-`str` value is `False`. -/
def eq (m : Markup) : Value → Bool
  | .vStr s => m.chars == s
  | .vMarkup s => m.chars == s
  | _ => false

/-- The class body of `Markup` in markupsafe_compat.py: `__eq__` is defined
(line 243) and `__hash__` is never defined. -/
def markupClassBody : Py.ClassBody := { definesEq := true, definesHash := false }

end Compat

namespace Bindings

/-- `escape` of src/python_bindings/__init__.py (lines 47-53, the fallback
used when the Rust extension is unavailable): `__html__` output is returned
as-is (not wrapped), bytes are decoded / escaped / re-encoded, anything else
is `str()`-converted and passed to `html.escape`; the result of the string
path is a plain `str`, not a `Markup`. -/
def escape : Value → Except PyErr Value
  | .vMarkup s => .ok (.vMarkup s)
  | .vHtmlOnly h => .ok (.vStr h)
  | .vBytes bs => .ok (.vBytes (Py.utf8Encode (Html.escape (Py.utf8Decode bs))))
  | v => (Py.str v).map fun t => .vStr (Html.escape t)

/-- `escape_silent` of src/python_bindings/__init__.py (lines 55-59):
`None` is returned unchanged (`return None`), everything else goes through
`escape`. -/
def escape_silent : Value → Except PyErr Value
  | .vNone => .ok .vNone
  | v => escape v

end Bindings

namespace Fallback

/-- The text pipeline of `escape` in src/python_bindings/rysafe/__init__.py
(lines 11-13): `html.escape(text)` followed by
`text.replace("'", "&#x27;")` (a no-op, since `html.escape` already
substituted every single quote). -/
def escapeText (t : List Char) : List Char :=
  Py.replace [aposC] aposEnt (Html.escape t)

/-- `escape` of src/python_bindings/rysafe/__init__.py (lines 6-14): values
exposing `__html__` are wrapped as already safe; `None` maps to
`Markup("None")`; everything else is `str()`-converted (exceptions
propagate) and run through the text pipeline; the result is a `Markup`. -/
def escape : Value → Except PyErr Markup
  | .vMarkup s => .ok ⟨s⟩
  | .vHtmlOnly h => .ok ⟨h⟩
  | .vNone => .ok ⟨toChars "None"⟩
  | v => (Py.str v).map fun t => ⟨escapeText t⟩

/-- `escape_silent` of src/python_bindings/rysafe/__init__.py (lines 16-19):
`None` maps to the empty `Markup`, everything else goes through `escape`. -/
def escape_silent : Value → Except PyErr Markup
  | .vNone => .ok ⟨[]⟩
  | v => escape v

/-- The text pipeline of `unescape` in src/python_bindings/rysafe/__init__.py
(lines 22-24): `html.unescape(text)` followed by
`text.replace("&#x27;", "'")`. -/
def unescapeText (s : List Char) : List Char :=
  Py.replace aposEnt [aposC] (Html.unescape s)

/-- `unescape` of src/python_bindings/rysafe/__init__.py (lines 21-25):
`str()`-convert, then the text pipeline; the result is a plain string (no
safety tag). -/
def unescape (v : Value) : Except PyErr (List Char) :=
  (Py.str v).map unescapeText

end Fallback

section ScannerLemmas

/-- The scanner on the empty string. -/
theorem unescGo_nil : ∀ f : Nat, Html.unescGo f [] = [] := by
  intro f
  cases f <;> rfl

/-- Scanner step at a `&`. -/
theorem unescGo_amp (f : Nat) (rest : List Char) :
    Html.unescGo (f + 1) (ampC :: rest) =
      match Html.tryMatch rest with
      | some (repl, n) => repl ++ Html.unescGo f (rest.drop n)
      | none => ampC :: Html.unescGo f rest := by
  simp [Html.unescGo]

/-- Scanner step at an ordinary character. -/
theorem unescGo_notamp (f : Nat) (c : Char) (rest : List Char)
    (h : ¬ c = ampC) :
    Html.unescGo (f + 1) (c :: rest) = c :: Html.unescGo f rest := by
  simp [Html.unescGo, h]

/-- A string without `&` passes through the scanner unchanged. -/
theorem unescGo_noamp :
    ∀ (f : Nat) (s : List Char), s.length ≤ f → ampC ∉ s →
      Html.unescGo f s = s := by
  intro f
  induction f with
  | zero =>
    intro s hs _
    have h : s = [] := List.length_eq_zero.mp (Nat.le_zero.mp hs)
    simp [h, unescGo_nil]
  | succ f ih =>
    intro s hs hmem
    cases s with
    | nil => exact unescGo_nil _
    | cons c rest =>
      have hlen : rest.length ≤ f := by
        simpa [Nat.succ_le_succ_iff] using hs
      have hne : ¬ c = ampC := fun h => hmem (by simp [h])
      have hrest : ampC ∉ rest := fun h => hmem (by simp [h])
      rw [unescGo_notamp f c rest hne, ih rest hlen hrest]

/-- `html.unescape` leaves `&`-free strings unchanged. -/
theorem unescape_noamp (s : List Char) (h : ampC ∉ s) :
    Html.unescape s = s :=
  unescGo_noamp s.length s le_rfl h

/-- The Entity Table pass never shortens a string. -/
theorem flatMap_escChar_length_le (s : List Char) :
    s.length ≤ (s.flatMap escChar).length := by
  induction s with
  | nil => simp
  | cons c rest ih =>
    rw [List.flatMap_cons, List.length_append, List.length_cons]
    have := escChar_length_pos c
    omega

/-- The Entity Table pass strictly lengthens any string containing `&`. -/
theorem flatMap_escChar_length_lt (s : List Char) (h : ampC ∈ s) :
    s.length < (s.flatMap escChar).length := by
  induction s with
  | nil => cases h
  | cons c rest ih =>
    rw [List.flatMap_cons, List.length_append, List.length_cons]
    rcases List.mem_cons.mp h with hc | hc
    · have h5 : (escChar c).length = 5 := by
        rw [← hc]
        decide
      have := flatMap_escChar_length_le rest
      omega
    · have := escChar_length_pos c
      have := ih hc
      omega

/-- Escaping preserves the presence of `&` (the substituted entity itself
contains `&`). -/
theorem ampC_mem_flatMap (s : List Char) (h : ampC ∈ s) :
    ampC ∈ s.flatMap escChar := by
  rcases h with _ | _
  case head rest =>
    rw [List.flatMap_cons]
    refine List.mem_append.mpr (Or.inl ?_)
    decide
  case tail c rest h =>
    rw [List.flatMap_cons]
    refine List.mem_append.mpr (Or.inr ?_)
    exact ampC_mem_flatMap rest h

/-- Decoding inverts the Entity Table pass on `&`-free text: the scanner
consumes each substituted entity whole and copies every ordinary character. -/
theorem unescGo_escaped :
    ∀ (t : List Char) (f : Nat), ampC ∉ t →
      (t.flatMap escChar).length ≤ f →
      Html.unescGo f (t.flatMap escChar) = t := by
  intro t
  induction t with
  | nil =>
    intro f _ _
    simpa using unescGo_nil f
  | cons c rest ih =>
    intro f hmem hf
    have hcne : ¬ c = ampC := fun h => hmem (by simp [h])
    have hrest : ampC ∉ rest := fun h => hmem (by simp [h])
    rw [List.flatMap_cons] at hf ⊢
    rw [List.length_append] at hf
    by_cases h2 : c = ltC
    · subst h2
      rw [show escChar ltC = ltEnt from rfl] at hf ⊢
      have h4 : ltEnt.length = 4 := rfl
      obtain ⟨f', rfl⟩ : ∃ f', f = f' + 1 := by
        rcases f with _ | f'
        · omega
        · exact ⟨f', rfl⟩
      show Html.unescGo (f' + 1)
          (ampC :: 'l' :: 't' :: ';' :: rest.flatMap escChar) = ltC :: rest
      rw [unescGo_amp]
      rw [show Html.tryMatch ('l' :: 't' :: ';' :: rest.flatMap escChar) =
        some ([ltC], 3) from rfl]
      show ltC :: Html.unescGo f' (rest.flatMap escChar) = ltC :: rest
      rw [ih f' hrest (by omega)]
    · by_cases h3 : c = gtC
      · subst h3
        rw [show escChar gtC = gtEnt from rfl] at hf ⊢
        have h4 : gtEnt.length = 4 := rfl
        obtain ⟨f', rfl⟩ : ∃ f', f = f' + 1 := by
          rcases f with _ | f'
          · omega
          · exact ⟨f', rfl⟩
        show Html.unescGo (f' + 1)
            (ampC :: 'g' :: 't' :: ';' :: rest.flatMap escChar) = gtC :: rest
        rw [unescGo_amp]
        rw [show Html.tryMatch ('g' :: 't' :: ';' :: rest.flatMap escChar) =
          some ([gtC], 3) from rfl]
        show gtC :: Html.unescGo f' (rest.flatMap escChar) = gtC :: rest
        rw [ih f' hrest (by omega)]
      · by_cases h4 : c = quotC
        · subst h4
          rw [show escChar quotC = quotEnt from rfl] at hf ⊢
          have h6 : quotEnt.length = 6 := rfl
          obtain ⟨f', rfl⟩ : ∃ f', f = f' + 1 := by
            rcases f with _ | f'
            · omega
            · exact ⟨f', rfl⟩
          show Html.unescGo (f' + 1)
              (ampC :: 'q' :: 'u' :: 'o' :: 't' :: ';' :: rest.flatMap escChar)
              = quotC :: rest
          rw [unescGo_amp]
          rw [show Html.tryMatch
            ('q' :: 'u' :: 'o' :: 't' :: ';' :: rest.flatMap escChar) =
            some ([quotC], 5) from rfl]
          show quotC :: Html.unescGo f' (rest.flatMap escChar) = quotC :: rest
          rw [ih f' hrest (by omega)]
        · by_cases h5 : c = aposC
          · subst h5
            rw [show escChar aposC = aposEnt from rfl] at hf ⊢
            have h6 : aposEnt.length = 6 := rfl
            obtain ⟨f', rfl⟩ : ∃ f', f = f' + 1 := by
              rcases f with _ | f'
              · omega
              · exact ⟨f', rfl⟩
            show Html.unescGo (f' + 1)
                (ampC :: '#' :: 'x' :: '2' :: '7' :: ';' :: rest.flatMap escChar)
                = aposC :: rest
            rw [unescGo_amp]
            rw [show Html.tryMatch
              ('#' :: 'x' :: '2' :: '7' :: ';' :: rest.flatMap escChar) =
              some ([aposC], 5) from rfl]
            show aposC :: Html.unescGo f' (rest.flatMap escChar) = aposC :: rest
            rw [ih f' hrest (by omega)]
          · have hesc : escChar c = [c] := by
              simp [escChar, hcne, h2, h3, h4, h5]
            rw [hesc] at hf ⊢
            have h1 : ([c] : List Char).length = 1 := rfl
            obtain ⟨f', rfl⟩ : ∃ f', f = f' + 1 := by
              rcases f with _ | f'
              · omega
              · exact ⟨f', rfl⟩
            show Html.unescGo (f' + 1) (c :: rest.flatMap escChar) = c :: rest
            rw [unescGo_notamp f' c _ hcne]
            rw [ih f' hrest (by omega)]

/-- `html.unescape` inverts the Entity Table pass on `&`-free text. -/
theorem unescape_escaped (t : List Char) (h : ampC ∉ t) :
    Html.unescape (t.flatMap escChar) = t :=
  unescGo_escaped t (t.flatMap escChar).length h le_rfl

end ScannerLemmas

section PipelineLemmas

/-- The fallback escape pipeline (`html.escape` + the redundant single-quote
replace) equals the single left-to-right Entity Table pass. -/
theorem escapeText_eq_flatMap (t : List Char) :
    Fallback.escapeText t = t.flatMap escChar := by
  unfold Fallback.escapeText
  rw [htmlEscape_eq_flatMap]
  exact replace_skip aposC [] aposEnt _ (aposC_not_mem_flatMap t)

/-- The fallback unescape pipeline leaves `&`-free strings unchanged. -/
theorem unescapeText_noamp (s : List Char) (h : ampC ∉ s) :
    Fallback.unescapeText s = s := by
  unfold Fallback.unescapeText
  rw [unescape_noamp s h]
  exact replace_skip ampC ['#', 'x', '2', '7', ';'] [aposC] s h

/-- The fallback unescape pipeline inverts the fallback escape pipeline on
`&`-free text. -/
theorem unescapeText_escapeText (t : List Char) (h : ampC ∉ t) :
    Fallback.unescapeText (Fallback.escapeText t) = t := by
  rw [escapeText_eq_flatMap]
  unfold Fallback.unescapeText
  rw [unescape_escaped t h]
  exact replace_skip ampC ['#', 'x', '2', '7', ';'] [aposC] t h

/-- `Compat.escape` over a list of plain strings escapes each item. -/
theorem escapeAll_vStr (items : List (List Char)) :
    Compat.escapeAll (items.map Value.vStr) =
      .ok (items.map fun s => s.flatMap escChar) := by
  induction items with
  | nil => rfl
  | cons s rest ih =>
    simp [Compat.escapeAll, Compat.escape, Py.str, Except.map, Core.escape,
      ih, Bind.bind, Except.bind]

/-- `Compat.escape` over a list of `Markup`s passes each through. -/
theorem escapeAll_vMarkup (items : List (List Char)) :
    Compat.escapeAll (items.map Value.vMarkup) = .ok items := by
  induction items with
  | nil => rfl
  | cons s rest ih =>
    simp [Compat.escapeAll, Compat.escape, ih, Bind.bind, Except.bind]

end PipelineLemmas

/-- **C1.** For every input string, `escape` substitutes each occurrence of
exactly the five characters `&`, `<`, `>`, `"`, `'` with `&amp;`, `&lt;`,
`&gt;`, `&quot;`, `&#x27;` respectively, in a single left-to-right pass
without re-scanning substituted output (the sequential `str.replace` pipeline
of the source equals the one-pass per-character map `escChar`), every other
character — including non-ASCII and emoji — passes through unchanged, and
the result is tagged safe (a `Markup`). -/
theorem escape_single_pass :
    (∀ s : List Char, Fallback.escape (.vStr s) = .ok ⟨s.flatMap escChar⟩)
    ∧ escChar ampC = ampEnt ∧ escChar ltC = ltEnt ∧ escChar gtC = gtEnt
    ∧ escChar quotC = quotEnt ∧ escChar aposC = aposEnt
    ∧ ∀ c : Char, c ∉ [ampC, ltC, gtC, quotC, aposC] → escChar c = [c] := by
  refine ⟨?_, rfl, rfl, rfl, rfl, rfl, ?_⟩
  · intro s
    simp [Fallback.escape, Py.str, Except.map, escapeText_eq_flatMap]
  · intro c hc
    simp only [List.mem_cons, List.not_mem_nil, or_false] at hc
    push_neg at hc
    simp [escChar, hc.1, hc.2.1, hc.2.2.1, hc.2.2.2.1, hc.2.2.2.2]

/-- Witness for C1 at a concrete non-ASCII character (the Earth emoji,
U+1F30D): it passes through unchanged. -/
theorem escape_single_pass_witness :
    escChar (Char.ofNat 127757) = [Char.ofNat 127757] :=
  escape_single_pass.2.2.2.2.2.2 (Char.ofNat 127757) (by decide)

/-- **C2 (counterexample).** The claim "any `&...` sequence that does not
match a complete recognized reference terminated by `;` is passed through
unchanged; in particular `&amp` without a trailing `;` is left exactly as
written" is false for the source `unescape`: `unescape("&amp")` yields `"&"`
(CPython's `html.unescape` decodes HTML5 legacy semicolon-less references),
and `unescape("&#1;")` drops the reference entirely, yielding `""`. -/
theorem unescape_legacy_counterexample :
    Fallback.unescape (.vStr (toChars "&amp")) = .ok (toChars "&")
    ∧ toChars "&" ≠ toChars "&amp"
    ∧ Fallback.unescape (.vStr (toChars "&#1;")) = .ok [] :=
  ⟨by decide, by decide, by decide⟩

/-- **C2 (amended).** `unescape` never raises: a string containing no `&` is
returned unchanged, and `&...` sequences that match no reference alternative
even under HTML5's lenient rules (`&#x;`, `&zz;`) pass through character for
character; however named references in HTML5's legacy semicolon-less set and
numeric references are decoded even without the terminating `;`
(`&amp` ↦ `&`, `&#38` ↦ `&`), and certain invalid numeric references decode
to the empty string (`&#1;` ↦ `""`). -/
theorem unescape_malformed_amended :
    (∀ s : List Char, ampC ∉ s → Fallback.unescape (.vStr s) = .ok s)
    ∧ Fallback.unescape (.vStr (toChars "&#x;")) = .ok (toChars "&#x;")
    ∧ Fallback.unescape (.vStr (toChars "&zz;")) = .ok (toChars "&zz;")
    ∧ Fallback.unescape (.vStr (toChars "&amp")) = .ok (toChars "&")
    ∧ Fallback.unescape (.vStr (toChars "&#38")) = .ok (toChars "&")
    ∧ Fallback.unescape (.vStr (toChars "&#1;")) = .ok [] := by
  refine ⟨?_, by decide, by decide, by decide, by decide, by decide⟩
  intro s hs
  simp [Fallback.unescape, Py.str, Except.map]
  exact unescapeText_noamp s hs

/-- Witness for C2 (amended) at a concrete `&`-free string. -/
theorem unescape_malformed_amended_witness :
    Fallback.unescape (.vStr (toChars "abc")) = .ok (toChars "abc") :=
  unescape_malformed_amended.1 (toChars "abc") (by decide)

/-- **C3.** Concatenating a safe string with an unsafe operand, in either
order, escapes the unsafe operand first and yields a safe result; an
already-safe operand passes through unescaped; `join` escapes each non-safe
item and passes safe items through; in particular
`Markup("<br>").join(["<a>", "b"])` equals `"&lt;a&gt;<br>b"`. -/
theorem markup_concat_join_escaping :
    (∀ (m : Markup) (s : List Char),
      Compat.add m (.vStr s) = .ok ⟨m.chars ++ s.flatMap escChar⟩
      ∧ Compat.radd m (.vStr s) = .ok ⟨s.flatMap escChar ++ m.chars⟩)
    ∧ (∀ (m : Markup) (s : List Char),
      Compat.add m (.vMarkup s) = .ok ⟨m.chars ++ s⟩
      ∧ Compat.radd m (.vMarkup s) = .ok ⟨s ++ m.chars⟩)
    ∧ (∀ (sep : Markup) (items : List (List Char)),
      Compat.join sep (items.map Value.vStr)
        = .ok ⟨List.intercalate sep.chars (items.map fun s => s.flatMap escChar)⟩)
    ∧ (∀ (sep : Markup) (items : List (List Char)),
      Compat.join sep (items.map Value.vMarkup)
        = .ok ⟨List.intercalate sep.chars items⟩)
    ∧ Compat.join ⟨toChars "<br>"⟩ [.vStr (toChars "<a>"), .vStr (toChars "b")]
        = .ok ⟨toChars "&lt;a&gt;<br>b"⟩ := by
  refine ⟨fun m s => ⟨rfl, rfl⟩, fun m s => ⟨rfl, rfl⟩, ?_, ?_, by decide⟩
  · intro sep items
    simp [Compat.join, escapeAll_vStr, Except.map]
  · intro sep items
    simp [Compat.join, escapeAll_vMarkup, Except.map]

/-- **C4.** For every text `t` containing no entity-reference syntax (no
`&`), `unescape(escape(t))` equals `t`: decoding inverts escaping on
entity-free input. -/
theorem unescape_escape_roundtrip :
    ∀ t : List Char, ampC ∉ t → ∀ m : Markup,
      Fallback.escape (.vStr t) = .ok m →
      Fallback.unescape (.vMarkup m.chars) = .ok t := by
  intro t ht m hm
  have hme : m = ⟨Fallback.escapeText t⟩ := by
    simp [Fallback.escape, Py.str, Except.map] at hm
    exact hm.symm
  subst hme
  simp [Fallback.unescape, Py.str, Except.map]
  exact unescapeText_escapeText t ht

/-- Witness for C4 at `t = "<b>"`: escaping gives `"&lt;b&gt;"` and decoding
recovers `"<b>"`. -/
theorem unescape_escape_roundtrip_witness :
    Fallback.unescape (.vMarkup (Markup.mk (toChars "&lt;b&gt;")).chars)
      = .ok (toChars "<b>") :=
  unescape_escape_roundtrip (toChars "<b>") (by decide)
    ⟨toChars "&lt;b&gt;"⟩ (by decide)

/-- **C5.** Applying `escape` to a value already tagged safe — a `Markup`
wrapping `t`, whose safe-rendering capability `__html__` returns itself —
returns that value unchanged: tagged-safe input is never double-escaped. -/
theorem escape_safe_passthrough :
    ∀ t : List Char,
      Markup.html ⟨t⟩ = Markup.mk t ∧ Compat.escape (.vMarkup t) = .ok ⟨t⟩ :=
  fun _ => ⟨rfl, rfl⟩

/-- **C6.** Escaping plain text is not idempotent: whenever `t` contains
`&`, escaping the text of `escape(t)` differs from `escape(t)` (each
substituted entity reintroduces a `&`, which a second pass expands again);
e.g. `escape("&amp;")` yields `"&amp;amp;"`. -/
theorem escape_not_idempotent :
    (∀ t : List Char, ampC ∈ t →
      Fallback.escapeText (Fallback.escapeText t) ≠ Fallback.escapeText t)
    ∧ Fallback.escapeText (toChars "&amp;") = toChars "&amp;amp;" := by
  constructor
  · intro t ht heq
    have h1 : ampC ∈ Fallback.escapeText t := by
      rw [escapeText_eq_flatMap]
      exact ampC_mem_flatMap t ht
    have h2 : (Fallback.escapeText t).length <
        (Fallback.escapeText (Fallback.escapeText t)).length := by
      rw [escapeText_eq_flatMap (Fallback.escapeText t)]
      exact flatMap_escChar_length_lt _ h1
    rw [heq] at h2
    exact lt_irrefl _ h2
  · decide

/-- Witness for C6 at `t = "&"`: double-escaping differs from escaping. -/
theorem escape_not_idempotent_witness :
    Fallback.escapeText (Fallback.escapeText ['&']) ≠ Fallback.escapeText ['&'] :=
  escape_not_idempotent.1 ['&'] (by decide)

/-- **C7.** `escape` fails with `UnsupportedInputType` exactly when its input
has no textual conversion (`str()` raises) and exposes no safe-rendering
capability; the error is surfaced to the caller (returned, never handled);
for every other input `escape` succeeds and returns a safe string. -/
theorem escape_unsupported_input :
    ∀ v : Value,
      (Compat.escape v = .error .unsupportedInputType
        ↔ (Py.str v = .error .unsupportedInputType ∧ Py.hasHtml v = false))
      ∧ ((Py.str v ≠ .error .unsupportedInputType ∨ Py.hasHtml v = true)
          → ∃ m, Compat.escape v = .ok m) := by
  intro v
  cases v <;> simp [Compat.escape, Py.str, Py.hasHtml, Except.map]

/-- Witness for C7: a stringifiable object escapes successfully. -/
theorem escape_unsupported_input_witness :
    ∃ m, Compat.escape (.vObj (toChars "x")) = .ok m :=
  (escape_unsupported_input (.vObj (toChars "x"))).2 (Or.inl (by decide))

/-- **C8 (counterexample).** The claim "`escape_silent` applied to the
absent/`None` value returns the empty safe string" is false for the
`escape_silent` of src/python_bindings/__init__.py (cited by the claim):
it returns `None` itself, not a safe string. -/
theorem escape_silent_none_counterexample :
    Bindings.escape_silent Value.vNone = .ok Value.vNone
    ∧ Value.vNone ≠ Value.vMarkup [] :=
  ⟨rfl, by decide⟩

/-- **C8 (amended).** In the primary implementation (markupsafe_compat),
`escape(None)` returns the safe string `"None"` and `escape_silent(None)`
returns the empty safe string; the python_bindings package-level fallback
`escape_silent`, however, returns `None` unchanged for `None` (it still
never fails on absent input). -/
theorem escape_none_amended :
    Compat.escape Value.vNone = .ok ⟨toChars "None"⟩
    ∧ Compat.escape_silent Value.vNone = .ok ⟨[]⟩
    ∧ Bindings.escape_silent Value.vNone = .ok Value.vNone :=
  ⟨by decide, rfl, rfl⟩

/-- **C9.** For every safe string, indexing by any range (slice) returns a
safe-tagged (`Markup`) string, while indexing by any valid single integer
index returns a plain one-character string. -/
theorem getitem_slice_safe_index_plain :
    (∀ (m : Markup) (a b : Option Int),
      ∃ s, Compat.getitem m (.slice a b) = .ok (.vMarkup s))
    ∧ (∀ (m : Markup) (i : Int),
        -(m.chars.length : Int) ≤ i → i < m.chars.length →
        ∃ c, Compat.getitem m (.index i) = .ok (.vStr [c])) := by
  constructor
  · intro m a b
    exact ⟨_, rfl⟩
  · intro m i h1 h2
    have hj : ∃ c, Compat.pyCharAt m.chars i = some c := by
      unfold Compat.pyCharAt
      by_cases hi : i < 0
      · have h0 : ¬ (i + (m.chars.length : Int) < 0) := by omega
        simp only [hi, if_true, h0, if_false]
        have hlt : (i + (m.chars.length : Int)).toNat < m.chars.length := by
          omega
        cases hc : m.chars.get? (i + (m.chars.length : Int)).toNat with
        | none =>
          rw [List.get?_eq_none] at hc
          omega
        | some c => exact ⟨c, rfl⟩
      · have h0 : ¬ (i < 0) := hi
        simp only [h0, if_false]
        have hlt : i.toNat < m.chars.length := by omega
        cases hc : m.chars.get? i.toNat with
        | none =>
          rw [List.get?_eq_none] at hc
          omega
        | some c => exact ⟨c, rfl⟩
    obtain ⟨c, hc⟩ := hj
    refine ⟨c, ?_⟩
    simp [Compat.getitem, hc]

/-- Witness for C9 at `Markup("ab")` with slice `[0:1]` and index `0`. -/
theorem getitem_slice_safe_index_plain_witness :
    (∃ s, Compat.getitem ⟨toChars "ab"⟩ (.slice (some 0) (some 1))
      = .ok (.vMarkup s))
    ∧ ∃ c, Compat.getitem ⟨toChars "ab"⟩ (.index 0) = .ok (.vStr [c]) :=
  ⟨getitem_slice_safe_index_plain.1 ⟨toChars "ab"⟩ (some 0) (some 1),
   getitem_slice_safe_index_plain.2 ⟨toChars "ab"⟩ 0 (by decide) (by decide)⟩

/-- **C10.** `Markup` overrides `__eq__` without defining `__hash__`, so by
Python's data model its instances are unhashable: `hash(m)` — e.g. using a
`Markup` as a dict key or set element — raises `TypeError`, even though
`Markup` values compare equal to the corresponding plain strings. -/
theorem markup_unhashable :
    ∀ (t : List Char) (inherited : Nat),
      Py.hash Compat.markupClassBody inherited = .error .typeError
      ∧ Compat.eq ⟨t⟩ (.vStr t) = true :=
  fun t _ => ⟨rfl, by simp [Compat.eq]⟩

